import Mathlib

/-!
Verification of licecap's duplicate-frame removal core
(`duplicate_frame_removal.cpp` / `.h`).

The embedding below translates the C++ source into Lean:
pixels are packed 32-bit RGBA values modelled as `Nat`, bitmaps expose
width/height/rowspan/flip and a linear pixel buffer, similarity scores
(`double` in C) are modelled as exact rationals, and the collapser's
output containers are Lean lists.
-/

namespace Licecap

/-- A packed 32-bit RGBA pixel (LICE layout: `0xAARRGGBB`). -/
abbrev LICE_pixel := Nat

/-- `LICE_RGBA(r,g,b,a) = (r<<16)|(g<<8)|b|(a<<24)`. -/
def LICE_RGBA (r g b a : Nat) : LICE_pixel :=
  (r <<< 16) ||| (g <<< 8) ||| b ||| (a <<< 24)

/-- `LICE_GETR(p) = (p>>16)&0xff`. -/
def LICE_GETR (p : LICE_pixel) : Nat := (p >>> 16) &&& 255

/-- `LICE_GETG(p) = (p>>8)&0xff`. -/
def LICE_GETG (p : LICE_pixel) : Nat := (p >>> 8) &&& 255

/-- `LICE_GETB(p) = p&0xff`. -/
def LICE_GETB (p : LICE_pixel) : Nat := p &&& 255

/-- `LICE_GETA(p) = (p>>24)&0xff`. -/
def LICE_GETA (p : LICE_pixel) : Nat := (p >>> 24) &&& 255

/-- A LICE bitmap: dimensions, row span, storage orientation, and a linear
pixel buffer (`getBits`), as used by `CalculateSimilarity`. -/
structure LICE_IBitmap where
  getWidth : Int
  getHeight : Int
  getRowSpan : Int
  isFlipped : Bool
  getBits : Int → LICE_pixel

/-- Windows-style RECT with `left, top, right, bottom`. -/
structure RECT where
  left : Int
  top : Int
  right : Int
  bottom : Int
deriving DecidableEq

/-- `DuplicateRemovalMode` from the header. -/
inductive DuplicateRemovalMode where
  | kDuplicateKeepFirst
  | kDuplicateKeepLast
deriving DecidableEq

export DuplicateRemovalMode (kDuplicateKeepFirst kDuplicateKeepLast)

/-- `DelayAdjustMode` from the header. -/
inductive DelayAdjustMode where
  | kDontAdjust
  | kAverage
  | kSum
deriving DecidableEq

export DelayAdjustMode (kDontAdjust kAverage kSum)

/-- `DuplicateFrameRemovalSettings` from the header; the `double` threshold
is modelled as an exact rational. -/
structure DuplicateFrameRemovalSettings where
  similarity_threshold : ℚ
  sample_step_x : Int
  sample_step_y : Int
  per_channel_tolerance : Int
  channel_mask : LICE_pixel
  keep_mode : DuplicateRemovalMode
  delay_adjust_mode : DelayAdjustMode
  enable_early_out : Bool

/-- `FrameInfo` from the header; a null `bmp` is `none`. -/
structure FrameInfo where
  index : Int
  bmp : Option LICE_IBitmap
  delay_ms : Int
  x : Int
  y : Int
  w : Int
  h : Int

/-- `clampi(v,lo,hi)` from the source. -/
def clampi (v lo hi : Int) : Int :=
  if v < lo then lo else if v > hi then hi else v

/-- `compute_roi` from the source, for the non-null case (the public entry
checks for null bitmaps before calling it). -/
def compute_roi (a b : LICE_IBitmap) (roi_in : Option RECT) : RECT :=
  let w := if a.getWidth < b.getWidth then a.getWidth else b.getWidth
  let h := if a.getHeight < b.getHeight then a.getHeight else b.getHeight
  match roi_in with
  | none => ⟨0, 0, w, h⟩
  | some roi =>
    let l := clampi roi.left 0 w
    let t := clampi roi.top 0 h
    let rr := clampi roi.right 0 w
    let bb := clampi roi.bottom 0 h
    let rr := if rr < l then l else rr
    let bb := if bb < t then t else bb
    ⟨l, t, rr, bb⟩

/-- Absolute per-channel difference `|(int)ch(p1) - (int)ch(p2)|` as written
in `pixels_equal` (`d = a - b; if (d < 0) d = -d;`). -/
def chanAbsDiff (ch : LICE_pixel → Nat) (p1 p2 : LICE_pixel) : Int :=
  let d : Int := (ch p1 : Int) - (ch p2 : Int)
  if d < 0 then -d else d

/-- `pixels_equal` from the source: strict masked XOR equality when
tolerance ≤ 0, otherwise a per-channel tolerance check over the channels
whose mask bits are set. -/
def pixels_equal (p1 p2 : LICE_pixel) (cfg : DuplicateFrameRemovalSettings) : Bool :=
  if cfg.per_channel_tolerance ≤ 0 then
    ((p1 ^^^ p2) &&& cfg.channel_mask) == 0
  else
    let tol := cfg.per_channel_tolerance
    if cfg.channel_mask &&& LICE_RGBA 255 0 0 0 ≠ 0 ∧ chanAbsDiff LICE_GETR p1 p2 > tol then
      false
    else if cfg.channel_mask &&& LICE_RGBA 0 255 0 0 ≠ 0 ∧ chanAbsDiff LICE_GETG p1 p2 > tol then
      false
    else if cfg.channel_mask &&& LICE_RGBA 0 0 255 0 ≠ 0 ∧ chanAbsDiff LICE_GETB p1 p2 > tol then
      false
    else if cfg.channel_mask &&& LICE_RGBA 0 0 0 255 ≠ 0 ∧ chanAbsDiff LICE_GETA p1 p2 > tol then
      false
    else
      true

/-- Pixel fetch used by the manual scan: `row = bits + yy*span; row[xx]`,
with the span negated and the base offset moved to the last row when the
bitmap is flipped. -/
def LICE_IBitmap.pixelAt (bm : LICE_IBitmap) (yy xx : Int) : LICE_pixel :=
  let base := if bm.isFlipped then bm.getRowSpan * (bm.getHeight - 1) else 0
  let span := if bm.isFlipped then -bm.getRowSpan else bm.getRowSpan
  bm.getBits (base + yy * span + xx)

/-- Coordinates `(x, y)` of every pixel differing under the mask, scanned
row-major over the common full frame. -/
def diffPixelList (a b : LICE_IBitmap) (mask : LICE_pixel) : List (Int × Int) :=
  ((List.range a.getHeight.toNat).map (fun (y : ℕ) =>
    (List.range a.getWidth.toNat).filterMap (fun (x : ℕ) =>
      let yy : Int := (y : Int)
      let xx : Int := (x : Int)
      if ((a.pixelAt yy xx ^^^ b.pixelAt yy xx) &&& mask) ≠ 0 then some (xx, yy)
      else none))).flatten

/-- Modelled from the spec: `LICE_BitmapCmpEx` is WDL/lice code not under
`src/`; per the collaborator contract it reports whether two equal-sized
bitmaps are identical under a channel mask (`none`) and, if not, the minimal
bounding rectangle `(x, y, width, height)` of all differing pixels under the
mask. -/
def LICE_BitmapCmpEx (a b : LICE_IBitmap) (mask : LICE_pixel) :
    Option (Int × Int × Int × Int) :=
  match diffPixelList a b mask with
  | [] => none
  | d :: ds =>
    let x0 := ds.foldl (fun m c => min m c.1) d.1
    let y0 := ds.foldl (fun m c => min m c.2) d.2
    let x1 := ds.foldl (fun m c => max m c.1) d.1
    let y1 := ds.foldl (fun m c => max m c.2) d.2
    some (x0, y0, x1 - x0 + 1, y1 - y0 + 1)

/-- Clamp of the final score: `if (sim<0) sim=0; if (sim>1) sim=1`. -/
def clamp01 (x : ℚ) : ℚ :=
  if x < 0 then 0 else if x > 1 then 1 else x

/-- State of the manual scan loop: `equal_count`, `processed`, and whether
the early-out `goto CALC_FINISH` has fired. -/
structure ScanState where
  equal_count : Int
  processed : Int
  stopped : Bool

/-- One iteration of the manual scan's inner loop body on a sampled pixel
pair; once `stopped`, remaining samples are skipped (the `goto`). -/
def scanStep (cfg : DuplicateFrameRemovalSettings) (total_samples : Int)
    (st : ScanState) (pq : LICE_pixel × LICE_pixel) : ScanState :=
  if st.stopped then st
  else
    let eq' := st.equal_count + (if pixels_equal pq.1 pq.2 cfg then 1 else 0)
    let proc' := st.processed + 1
    let stopped' := cfg.enable_early_out &&
      decide ((((eq' + (total_samples - proc') : Int) : ℚ)) / ((total_samples : Int) : ℚ)
        < cfg.similarity_threshold)
    ⟨eq', proc', stopped'⟩

/-- Sampled pixel pairs visited by the two nested loops
(`yy = r.top; yy < r.bottom; yy += sY` / `xx = r.left; xx < r.right; xx += sX`),
in row-major order; `nH`/`nW` are the iteration counts `⌈rh/sY⌉`/`⌈rw/sX⌉`. -/
def samplePairs (a b : LICE_IBitmap) (r : RECT) (sX sY : Int) (nW nH : Nat) :
    List (LICE_pixel × LICE_pixel) :=
  ((List.range nH).map (fun (i : ℕ) =>
    (List.range nW).map (fun (j : ℕ) =>
      let yy := r.top + (i : Int) * sY
      let xx := r.left + (j : Int) * sX
      (a.pixelAt yy xx, b.pixelAt yy xx)))).flatten

/-- The manual scan of `CalculateSimilarity` (lines after the fast path):
clamps the sample steps, precomputes the total sample count, folds the loop
body over the sampled pairs, and forms the clamped final score. -/
def genericScan (a b : LICE_IBitmap) (r : RECT)
    (cfg : DuplicateFrameRemovalSettings) : ℚ :=
  let sX := if cfg.sample_step_x > 0 then cfg.sample_step_x else 1
  let sY := if cfg.sample_step_y > 0 then cfg.sample_step_y else 1
  let rw := r.right - r.left
  let rh := r.bottom - r.top
  let roi_w_s := (rw + (sX - 1)).tdiv sX
  let roi_h_s := (rh + (sY - 1)).tdiv sY
  let total_samples := roi_w_s * roi_h_s
  if total_samples ≤ 0 then 1
  else
    let st := (samplePairs a b r sX sY roi_w_s.toNat roi_h_s.toNat).foldl
      (scanStep cfg total_samples) ⟨0, 0, false⟩
    if st.processed ≤ 0 then 1
    else clamp01 ((st.equal_count : ℚ) / ((total_samples : Int) : ℚ))

/-- `CalculateSimilarity` from the source: null and size-mismatch checks,
ROI computation, the empty-region convention, the exact-compare fast path,
and otherwise the manual sampled scan. -/
def CalculateSimilarity (a b : Option LICE_IBitmap) (roi : Option RECT)
    (cfg : DuplicateFrameRemovalSettings) : ℚ :=
  match a, b with
  | some a, some b =>
    if a.getWidth ≠ b.getWidth ∨ a.getHeight ≠ b.getHeight then 0
    else
      let r := compute_roi a b roi
      let rw := r.right - r.left
      let rh := r.bottom - r.top
      if rw ≤ 0 ∨ rh ≤ 0 then 1
      else if cfg.per_channel_tolerance ≤ 0 ∧ cfg.sample_step_x = 1 ∧ cfg.sample_step_y = 1 ∧
          r.left = 0 ∧ r.top = 0 ∧ r.right = a.getWidth ∧ r.bottom = a.getHeight then
        match LICE_BitmapCmpEx a b cfg.channel_mask with
        | none => 1
        | some dc =>
          let total : Int := a.getWidth * a.getHeight
          let diff : Int := dc.2.2.1 * dc.2.2.2
          if total ≤ 0 then 0
          else clamp01 (1 - ((diff : ℚ) / (total : ℚ)))
      else genericScan a b r cfg
  | _, _ => 0

/-- `IsDuplicateFrame` from the source: null checks, ROI derivation from the
frames' regions, then a threshold test on the similarity; returns the pair
(decision, written-back similarity). -/
def IsDuplicateFrame (prev curr : FrameInfo)
    (cfg : DuplicateFrameRemovalSettings) : Bool × ℚ :=
  match prev.bmp, curr.bmp with
  | some pb, some cb =>
    let roi : RECT :=
      if curr.w > 0 ∧ curr.h > 0 then
        ⟨curr.x, curr.y, curr.x + curr.w, curr.y + curr.h⟩
      else if prev.w > 0 ∧ prev.h > 0 then
        ⟨prev.x, prev.y, prev.x + prev.w, prev.y + prev.h⟩
      else
        ⟨0, 0,
          if pb.getWidth < cb.getWidth then pb.getWidth else cb.getWidth,
          if pb.getHeight < cb.getHeight then pb.getHeight else cb.getHeight⟩
    let sim := CalculateSimilarity (some pb) (some cb) (some roi) cfg
    (decide (sim ≥ cfg.similarity_threshold), sim)
  | _, _ => (false, 0)

/-- Delay adjustment applied when a run is flushed (`kSum`, guarded
`kAverage` with C truncating division, else keep the pending delay). -/
def flushDelay (cfg : DuplicateFrameRemovalSettings) (pending : FrameInfo)
    (group_count group_delay_sum : Int) : FrameInfo :=
  if cfg.delay_adjust_mode = kSum then
    { pending with delay_ms := group_delay_sum }
  else if cfg.delay_adjust_mode = kAverage ∧ group_count > 0 then
    { pending with delay_ms := group_delay_sum.tdiv group_count }
  else pending

/-- The main loop of `RemoveDuplicateFrames` over the remaining input, with
the pending run representative, group count, group delay sum, and the index
`i` of the next input frame; returns (output, removed, removed_indices). -/
def rdLoop (cfg : DuplicateFrameRemovalSettings) (pending : FrameInfo)
    (group_count group_delay_sum : Int) (i : Nat) :
    List FrameInfo → List FrameInfo × Nat × List Nat
  | [] => ([flushDelay cfg pending group_count group_delay_sum], 0, [])
  | cur :: rest =>
    if (IsDuplicateFrame pending cur cfg).1 then
      if cfg.keep_mode = kDuplicateKeepFirst then
        let r := rdLoop cfg pending (group_count + 1) (group_delay_sum + cur.delay_ms)
          (i + 1) rest
        (r.1, r.2.1 + 1, i :: r.2.2)
      else
        let r := rdLoop cfg cur (group_count + 1) (group_delay_sum + cur.delay_ms)
          (i + 1) rest
        (r.1, r.2.1 + 1, (i - 1) :: r.2.2)
    else
      let r := rdLoop cfg cur 1 cur.delay_ms (i + 1) rest
      (flushDelay cfg pending group_count group_delay_sum :: r.1, r.2.1, r.2.2)

/-- `RemoveDuplicateFrames` from the source: empty input short-circuits;
otherwise a single pass collapsing consecutive duplicates, returning the
output frames, the removed count, and the removed input indices. -/
def RemoveDuplicateFrames (input : List FrameInfo)
    (cfg : DuplicateFrameRemovalSettings) : List FrameInfo × Nat × List Nat :=
  match input with
  | [] => ([], 0, [])
  | f0 :: rest => rdLoop cfg f0 1 f0.delay_ms 1 rest

/-! ### Spec-side definitions and concrete sample data -/

/-- Comparison region as the specification describes it for the duplicate
test: cur's region when positive, else prev's region when positive, else
the rectangle from the origin to the componentwise minima of the two
bitmap dimensions. -/
def claimRegion (prev curr : FrameInfo) (rp rc : LICE_IBitmap) : RECT :=
  if 0 < curr.w ∧ 0 < curr.h then
    ⟨curr.x, curr.y, curr.x + curr.w, curr.y + curr.h⟩
  else if 0 < prev.w ∧ 0 < prev.h then
    ⟨prev.x, prev.y, prev.x + prev.w, prev.y + prev.h⟩
  else
    ⟨0, 0, min rp.getWidth rc.getWidth, min rp.getHeight rc.getHeight⟩

/-- A top-down bitmap whose row span equals its width, backed by a list of
pixels (out-of-range reads yield 0); used for concrete instances. -/
def mkBitmap (w h : Int) (px : List LICE_pixel) : LICE_IBitmap :=
  ⟨w, h, w, false, fun off => px.getD off.toNat 0⟩

/-- The defaults of the `DuplicateFrameRemovalSettings` constructor
(threshold 0.90, unit steps, exact compare, RGB mask, keep-first, sum). -/
def defaultSettings : DuplicateFrameRemovalSettings :=
  ⟨9/10, 1, 1, 0, LICE_RGBA 255 255 255 0, kDuplicateKeepFirst, kSum, true⟩

/-- Settings with per-channel tolerance 1 and threshold 1/2; the positive
tolerance forces the generic scan path. -/
def tolSettings : DuplicateFrameRemovalSettings :=
  ⟨1/2, 1, 1, 1, LICE_RGBA 255 255 255 0, kDuplicateKeepFirst, kSum, true⟩

/-- Settings with per-channel tolerance 5 and an RGB-only mask. -/
def tolWitnessSettings : DuplicateFrameRemovalSettings :=
  ⟨9/10, 1, 1, 5, LICE_RGBA 255 255 255 0, kDuplicateKeepFirst, kSum, true⟩

/-- The run decomposition induced by the collapsing loop: `acc` is the
current run collected so far and `pending` the loop's run representative;
a duplicate extends the current run (replacing the representative under
KeepLast), a non-duplicate closes it and opens a new one. -/
def runSplit (cfg : DuplicateFrameRemovalSettings) (pending : FrameInfo)
    (acc : List FrameInfo) : List FrameInfo → List (List FrameInfo)
  | [] => [acc]
  | cur :: rest =>
    if (IsDuplicateFrame pending cur cfg).1 then
      runSplit cfg (if cfg.keep_mode = kDuplicateKeepFirst then pending else cur)
        (acc ++ [cur]) rest
    else acc :: runSplit cfg cur [cur] rest

/-- The duplicate runs of a whole input sequence. -/
def dupRuns (input : List FrameInfo) (cfg : DuplicateFrameRemovalSettings) :
    List (List FrameInfo) :=
  match input with
  | [] => []
  | f0 :: rest => runSplit cfg f0 [f0] rest

/-- Bitmap X for the KeepLast non-idempotence example: three equal pixels. -/
def bmX : LICE_IBitmap := mkBitmap 3 1 [0, 0, 0]

/-- Bitmap Y: differs from X in two of three pixels. -/
def bmY : LICE_IBitmap := mkBitmap 3 1 [100, 100, 0]

/-- Bitmap Z: differs from Y in one pixel and from X in one pixel. -/
def bmZ : LICE_IBitmap := mkBitmap 3 1 [100, 0, 0]

/-- KeepLast settings with threshold 3/5 and tolerance 1 (generic scan). -/
def keepLastSettings : DuplicateFrameRemovalSettings :=
  ⟨3/5, 1, 1, 1, LICE_RGBA 255 255 255 0, kDuplicateKeepLast, kSum, true⟩

/-- Frames X, Y, Z for the KeepLast non-idempotence example: X ≁ Y, Y ∼ Z,
but X ∼ Z, so collapsing [X,Y,Z] under KeepLast yields [X,Z] whose two
frames are duplicates of each other. -/
def keepLastFrames : List FrameInfo :=
  [⟨0, some bmX, 10, 0, 0, 0, 0⟩, ⟨1, some bmY, 20, 0, 0, 0, 0⟩,
   ⟨2, some bmZ, 30, 0, 0, 0, 0⟩]

/-- The configuration with each non-positive sample step replaced by 1, as
the step-coercion claim describes. -/
def coerceSteps (cfg : DuplicateFrameRemovalSettings) : DuplicateFrameRemovalSettings :=
  { cfg with
    sample_step_x := if cfg.sample_step_x ≤ 0 then 1 else cfg.sample_step_x,
    sample_step_y := if cfg.sample_step_y ≤ 0 then 1 else cfg.sample_step_y }

/-- The inputs reach the whole-frame exact-compare fast path of
`CalculateSimilarity`: both bitmaps present with equal dimensions, the
effective region non-empty and covering the full frame, tolerance ≤ 0, and
both sample steps exactly 1. -/
def usesFastPath (a b : Option LICE_IBitmap) (roi : Option RECT)
    (cfg : DuplicateFrameRemovalSettings) : Prop :=
  ∃ ra rb, a = some ra ∧ b = some rb ∧
    ra.getWidth = rb.getWidth ∧ ra.getHeight = rb.getHeight ∧
    0 < (compute_roi ra rb roi).right - (compute_roi ra rb roi).left ∧
    0 < (compute_roi ra rb roi).bottom - (compute_roi ra rb roi).top ∧
    cfg.per_channel_tolerance ≤ 0 ∧ cfg.sample_step_x = 1 ∧ cfg.sample_step_y = 1 ∧
    (compute_roi ra rb roi).left = 0 ∧ (compute_roi ra rb roi).top = 0 ∧
    (compute_roi ra rb roi).right = ra.getWidth ∧
    (compute_roi ra rb roi).bottom = ra.getHeight

/-- Settings with sample_step_x = 0, exact compare, early-out off. -/
def stepZeroSettings : DuplicateFrameRemovalSettings :=
  ⟨9/10, 0, 1, 0, LICE_RGBA 255 255 255 0, kDuplicateKeepFirst, kSum, false⟩

/-- 2×2 bitmap of zeros. -/
def bmDiag0 : LICE_IBitmap := mkBitmap 2 2 [0, 0, 0, 0]

/-- 2×2 bitmap differing from `bmDiag0` at the two diagonal corners. -/
def bmDiag1 : LICE_IBitmap := mkBitmap 2 2 [100, 0, 0, 100]

/-- Settings with sample_step_x = 0 and tolerance 1 (the positive tolerance
keeps even the coerced configuration off the fast path). -/
def tolStepZeroSettings : DuplicateFrameRemovalSettings :=
  ⟨9/10, 0, 1, 1, LICE_RGBA 255 255 255 0, kDuplicateKeepFirst, kSum, false⟩

/-- 3×3 bitmap of zeros. -/
def bmGrid0 : LICE_IBitmap := mkBitmap 3 3 [0, 0, 0, 0, 0, 0, 0, 0, 0]

/-- 3×3 bitmap equal to `bmGrid0` except at position (1,1), which sits
strictly between the stride-2 sample points in both axes. -/
def bmGrid1 : LICE_IBitmap := mkBitmap 3 3 [0, 0, 0, 0, 50, 0, 0, 0, 0]

/-- Settings sampling every other pixel in both axes. -/
def stride2Settings : DuplicateFrameRemovalSettings :=
  ⟨9/10, 2, 2, 0, LICE_RGBA 255 255 255 0, kDuplicateKeepFirst, kSum, true⟩

/-! ### Theorems -/

/-- The runs concatenate back to the frames they were split from. -/
theorem runSplit_flatten (cfg : DuplicateFrameRemovalSettings) :
    ∀ (rest : List FrameInfo) (pending : FrameInfo) (acc : List FrameInfo),
      (runSplit cfg pending acc rest).flatten = acc ++ rest := by
  intro rest
  induction rest with
  | nil => intro pending acc; simp [runSplit]
  | cons cur rest ih =>
    intro pending acc
    simp only [runSplit]
    split_ifs with h1 h2
    · rw [ih]; simp
    · rw [ih]; simp
    · rw [List.flatten_cons, ih]; simp

/-- The delays of the loop's output frames are the per-run delay sums, in
Sum mode, provided the running sum matches the collected run. -/
theorem rdLoop_delay_sum (cfg : DuplicateFrameRemovalSettings)
    (hm : cfg.delay_adjust_mode = kSum) :
    ∀ (rest : List FrameInfo) (pending : FrameInfo) (acc : List FrameInfo)
      (gc gd : Int) (i : Nat), gd = (acc.map FrameInfo.delay_ms).sum →
      (rdLoop cfg pending gc gd i rest).1.map FrameInfo.delay_ms =
        (runSplit cfg pending acc rest).map
          (fun run => (run.map FrameInfo.delay_ms).sum) := by
  intro rest
  induction rest with
  | nil =>
    intro pending acc gc gd i hgd
    simp [rdLoop, runSplit, flushDelay, hm, hgd]
  | cons cur rest ih =>
    intro pending acc gc gd i hgd
    simp only [rdLoop, runSplit]
    split_ifs with h1 h2
    · have : gd + cur.delay_ms = ((acc ++ [cur]).map FrameInfo.delay_ms).sum := by
        simp [hgd]
      rw [ih pending (acc ++ [cur]) (gc + 1) (gd + cur.delay_ms) (i + 1) this]
    · have : gd + cur.delay_ms = ((acc ++ [cur]).map FrameInfo.delay_ms).sum := by
        simp [hgd]
      rw [ih cur (acc ++ [cur]) (gc + 1) (gd + cur.delay_ms) (i + 1) this]
    · have hsing : cur.delay_ms = ([cur].map FrameInfo.delay_ms).sum := by simp
      rw [List.map_cons, ih cur [cur] 1 cur.delay_ms (i + 1) hsing]
      simp [flushDelay, hm, hgd]

/-- C4: in Sum mode the runs of the input concatenate back to the input,
and each output frame's delay is the sum of the delays of all input frames
in its run, whatever the keep mode; this covers singleton runs. -/
theorem removeDuplicateFrames_sum_delays (input : List FrameInfo)
    (cfg : DuplicateFrameRemovalSettings) (hm : cfg.delay_adjust_mode = kSum) :
    (dupRuns input cfg).flatten = input ∧
    (RemoveDuplicateFrames input cfg).1.map FrameInfo.delay_ms =
      (dupRuns input cfg).map (fun run => (run.map FrameInfo.delay_ms).sum) := by
  cases input with
  | nil => simp [dupRuns, RemoveDuplicateFrames]
  | cons f0 rest =>
    refine ⟨by simp [dupRuns, runSplit_flatten], ?_⟩
    simp only [dupRuns, RemoveDuplicateFrames]
    exact rdLoop_delay_sum cfg hm rest f0 [f0] 1 f0.delay_ms 1 (by simp)



/-- Witness for C4: a concrete three-frame input (two duplicates then a
distinct frame) under Sum mode. -/
theorem removeDuplicateFrames_sum_delays_witness :
    tolSettings.delay_adjust_mode = kSum ∧
    ((dupRuns [⟨0, some (mkBitmap 1 1 [0]), 100, 0, 0, 0, 0⟩,
        ⟨1, some (mkBitmap 1 1 [0]), 110, 0, 0, 0, 0⟩,
        ⟨2, some (mkBitmap 1 1 [10]), 120, 0, 0, 0, 0⟩] tolSettings).flatten =
      [⟨0, some (mkBitmap 1 1 [0]), 100, 0, 0, 0, 0⟩,
        ⟨1, some (mkBitmap 1 1 [0]), 110, 0, 0, 0, 0⟩,
        ⟨2, some (mkBitmap 1 1 [10]), 120, 0, 0, 0, 0⟩] ∧
      (RemoveDuplicateFrames [⟨0, some (mkBitmap 1 1 [0]), 100, 0, 0, 0, 0⟩,
        ⟨1, some (mkBitmap 1 1 [0]), 110, 0, 0, 0, 0⟩,
        ⟨2, some (mkBitmap 1 1 [10]), 120, 0, 0, 0, 0⟩] tolSettings).1.map
          FrameInfo.delay_ms =
        (dupRuns [⟨0, some (mkBitmap 1 1 [0]), 100, 0, 0, 0, 0⟩,
          ⟨1, some (mkBitmap 1 1 [0]), 110, 0, 0, 0, 0⟩,
          ⟨2, some (mkBitmap 1 1 [10]), 120, 0, 0, 0, 0⟩] tolSettings).map
            (fun run => (run.map FrameInfo.delay_ms).sum)) :=
  ⟨rfl, removeDuplicateFrames_sum_delays _ tolSettings rfl⟩

/-- `(if a < b then a else b) = min a b` on `Int`. -/
theorem ite_lt_eq_min (a b : Int) : (if a < b then a else b) = min a b := by
  rw [min_def]; split_ifs <;> omega

/-- If a channel agrees on both pixels, its absolute difference is zero. -/
theorem chanAbsDiff_eq_zero (ch : LICE_pixel → Nat) (p1 p2 : LICE_pixel)
    (h : ch p1 = ch p2) : chanAbsDiff ch p1 p2 = 0 := by
  simp [chanAbsDiff, h]

/-- C9: `RemoveDuplicateFrames` on an empty input returns an empty output,
zero removed, and an empty removed-index list, for every configuration. -/
theorem removeDuplicateFrames_empty (cfg : DuplicateFrameRemovalSettings) :
    RemoveDuplicateFrames [] cfg = ([], 0, []) := rfl

/-- C2: `CalculateSimilarity` applies its degenerate checks in order: a null
bitmap yields 0, then mismatched dimensions yield 0, then an empty effective
region yields 1. -/
theorem calculateSimilarity_degenerate_order (a b : Option LICE_IBitmap)
    (roi : Option RECT) (cfg : DuplicateFrameRemovalSettings) :
    ((a = none ∨ b = none) → CalculateSimilarity a b roi cfg = 0) ∧
    (∀ ra rb, a = some ra → b = some rb →
      (ra.getWidth ≠ rb.getWidth ∨ ra.getHeight ≠ rb.getHeight) →
      CalculateSimilarity a b roi cfg = 0) ∧
    (∀ ra rb, a = some ra → b = some rb →
      ra.getWidth = rb.getWidth → ra.getHeight = rb.getHeight →
      ((compute_roi ra rb roi).right - (compute_roi ra rb roi).left ≤ 0 ∨
        (compute_roi ra rb roi).bottom - (compute_roi ra rb roi).top ≤ 0) →
      CalculateSimilarity a b roi cfg = 1) := by
  refine ⟨?_, ?_, ?_⟩
  · rintro (rfl | rfl)
    · rfl
    · cases a <;> rfl
  · rintro ra rb rfl rfl hne
    simp only [CalculateSimilarity]
    rw [if_pos hne]
  · rintro ra rb rfl rfl hw hh hempty
    simp only [CalculateSimilarity]
    rw [if_neg (by push_neg; exact ⟨hw, hh⟩), if_pos hempty]

/-- Witness for C2 at concrete inputs: a null bitmap, a 2×2 vs 3×2 size
mismatch, and an empty requested region. -/
theorem calculateSimilarity_degenerate_order_witness :
    CalculateSimilarity none (some (mkBitmap 2 2 [0, 0, 0, 0])) none defaultSettings = 0 ∧
    CalculateSimilarity (some (mkBitmap 2 2 [0, 0, 0, 0]))
      (some (mkBitmap 3 2 [0, 0, 0, 0, 0, 0])) none defaultSettings = 0 ∧
    CalculateSimilarity (some (mkBitmap 2 2 [0, 0, 0, 0]))
      (some (mkBitmap 2 2 [0, 0, 0, 0])) (some ⟨1, 1, 1, 1⟩) defaultSettings = 1 :=
  ⟨(calculateSimilarity_degenerate_order _ _ _ _).1 (Or.inl rfl),
   (calculateSimilarity_degenerate_order _ _ _ _).2.1 _ _ rfl rfl (Or.inl (by decide)),
   (calculateSimilarity_degenerate_order _ _ _ _).2.2 _ _ rfl rfl (by decide) (by decide)
     (Or.inl (by decide))⟩

/-- C5: with non-null bitmaps on both sides, `IsDuplicateFrame` compares over
the region derived from cur's region, else prev's region, else the common
bounds, and returns exactly the threshold decision plus the raw score. -/
theorem isDuplicateFrame_region_and_threshold (prev curr : FrameInfo)
    (cfg : DuplicateFrameRemovalSettings) (rp rc : LICE_IBitmap)
    (hp : prev.bmp = some rp) (hc : curr.bmp = some rc) :
    IsDuplicateFrame prev curr cfg =
      (decide (CalculateSimilarity (some rp) (some rc)
          (some (claimRegion prev curr rp rc)) cfg ≥ cfg.similarity_threshold),
        CalculateSimilarity (some rp) (some rc)
          (some (claimRegion prev curr rp rc)) cfg) := by
  simp only [IsDuplicateFrame, hp, hc, claimRegion, ite_lt_eq_min]

/-- Witness for C5: two frames with 1×1 bitmaps and empty frame regions. -/
theorem isDuplicateFrame_region_and_threshold_witness :
    IsDuplicateFrame ⟨0, some (mkBitmap 1 1 [0]), 10, 0, 0, 0, 0⟩
        ⟨1, some (mkBitmap 1 1 [0]), 20, 0, 0, 0, 0⟩ defaultSettings =
      (decide (CalculateSimilarity (some (mkBitmap 1 1 [0])) (some (mkBitmap 1 1 [0]))
          (some (claimRegion ⟨0, some (mkBitmap 1 1 [0]), 10, 0, 0, 0, 0⟩
            ⟨1, some (mkBitmap 1 1 [0]), 20, 0, 0, 0, 0⟩ (mkBitmap 1 1 [0])
            (mkBitmap 1 1 [0]))) defaultSettings ≥ defaultSettings.similarity_threshold),
        CalculateSimilarity (some (mkBitmap 1 1 [0])) (some (mkBitmap 1 1 [0]))
          (some (claimRegion ⟨0, some (mkBitmap 1 1 [0]), 10, 0, 0, 0, 0⟩
            ⟨1, some (mkBitmap 1 1 [0]), 20, 0, 0, 0, 0⟩ (mkBitmap 1 1 [0])
            (mkBitmap 1 1 [0]))) defaultSettings) :=
  isDuplicateFrame_region_and_threshold _ _ defaultSettings _ _ rfl rfl

/-- C10: with positive tolerance, a channel participates iff any bit of its
mask byte is set, and participating channels are compared over their full
8-bit values against the tolerance; pixels differing only in fully unmasked
channels compare equal; with tolerance 0 exactly the mask bits must match. -/
theorem pixels_equal_mask_semantics (p1 p2 : LICE_pixel)
    (cfg : DuplicateFrameRemovalSettings) (h : 0 < cfg.per_channel_tolerance) :
    (pixels_equal p1 p2 cfg = true ↔
      ((cfg.channel_mask &&& LICE_RGBA 255 0 0 0 ≠ 0 →
          chanAbsDiff LICE_GETR p1 p2 ≤ cfg.per_channel_tolerance) ∧
        (cfg.channel_mask &&& LICE_RGBA 0 255 0 0 ≠ 0 →
          chanAbsDiff LICE_GETG p1 p2 ≤ cfg.per_channel_tolerance) ∧
        (cfg.channel_mask &&& LICE_RGBA 0 0 255 0 ≠ 0 →
          chanAbsDiff LICE_GETB p1 p2 ≤ cfg.per_channel_tolerance) ∧
        (cfg.channel_mask &&& LICE_RGBA 0 0 0 255 ≠ 0 →
          chanAbsDiff LICE_GETA p1 p2 ≤ cfg.per_channel_tolerance))) ∧
    (((cfg.channel_mask &&& LICE_RGBA 255 0 0 0 ≠ 0 → LICE_GETR p1 = LICE_GETR p2) ∧
        (cfg.channel_mask &&& LICE_RGBA 0 255 0 0 ≠ 0 → LICE_GETG p1 = LICE_GETG p2) ∧
        (cfg.channel_mask &&& LICE_RGBA 0 0 255 0 ≠ 0 → LICE_GETB p1 = LICE_GETB p2) ∧
        (cfg.channel_mask &&& LICE_RGBA 0 0 0 255 ≠ 0 → LICE_GETA p1 = LICE_GETA p2)) →
      pixels_equal p1 p2 cfg = true) ∧
    (pixels_equal p1 p2 { cfg with per_channel_tolerance := 0 } = true ↔
      (p1 ^^^ p2) &&& cfg.channel_mask = 0) := by
  have hnle : ¬ cfg.per_channel_tolerance ≤ 0 := not_le.mpr h
  have hiff : pixels_equal p1 p2 cfg = true ↔
      ((cfg.channel_mask &&& LICE_RGBA 255 0 0 0 ≠ 0 →
          chanAbsDiff LICE_GETR p1 p2 ≤ cfg.per_channel_tolerance) ∧
        (cfg.channel_mask &&& LICE_RGBA 0 255 0 0 ≠ 0 →
          chanAbsDiff LICE_GETG p1 p2 ≤ cfg.per_channel_tolerance) ∧
        (cfg.channel_mask &&& LICE_RGBA 0 0 255 0 ≠ 0 →
          chanAbsDiff LICE_GETB p1 p2 ≤ cfg.per_channel_tolerance) ∧
        (cfg.channel_mask &&& LICE_RGBA 0 0 0 255 ≠ 0 →
          chanAbsDiff LICE_GETA p1 p2 ≤ cfg.per_channel_tolerance)) := by
    simp only [pixels_equal, if_neg hnle]
    split_ifs with h1 h2 h3 h4 <;>
      constructor <;> intro hx <;> simp_all <;> omega
  refine ⟨hiff, ?_, ?_⟩
  · intro hzero
    exact hiff.mpr
      ⟨fun hm => by rw [chanAbsDiff_eq_zero _ _ _ (hzero.1 hm)]; omega,
       fun hm => by rw [chanAbsDiff_eq_zero _ _ _ (hzero.2.1 hm)]; omega,
       fun hm => by rw [chanAbsDiff_eq_zero _ _ _ (hzero.2.2.1 hm)]; omega,
       fun hm => by rw [chanAbsDiff_eq_zero _ _ _ (hzero.2.2.2 hm)]; omega⟩
  · simp [pixels_equal]

/-- Witness for C10: tolerance 5, RGB mask, pixels differing by 4 in green
and by 200 in (unmasked) alpha. -/
theorem pixels_equal_mask_semantics_witness :
    0 < tolWitnessSettings.per_channel_tolerance ∧
    pixels_equal (LICE_RGBA 10 20 30 0) (LICE_RGBA 10 24 30 200)
      tolWitnessSettings = true :=
  ⟨by decide,
    (pixels_equal_mask_semantics (LICE_RGBA 10 20 30 0) (LICE_RGBA 10 24 30 200)
      tolWitnessSettings (by decide)).1.mpr
      ⟨fun _ => by decide, fun _ => by decide, fun _ => by decide,
       fun hm => absurd hm (by decide)⟩⟩

/-- C1: on a six-frame input A A B B B C with delays 100..150 where the
pairs tested by the pass classify same-content frames as duplicates and
different-content frames as non-duplicates, KeepFirst+Sum yields output
A(210) B(390) C(150), removed count 3, removed indices [1,3,4]. -/
theorem removeDuplicateFrames_keepFirst_sum_example
    (f0 f1 f2 f3 f4 f5 : FrameInfo) (cfg : DuplicateFrameRemovalSettings)
    (hkeep : cfg.keep_mode = kDuplicateKeepFirst) (hsum : cfg.delay_adjust_mode = kSum)
    (hd0 : f0.delay_ms = 100) (hd1 : f1.delay_ms = 110) (hd2 : f2.delay_ms = 120)
    (hd3 : f3.delay_ms = 130) (hd4 : f4.delay_ms = 140) (hd5 : f5.delay_ms = 150)
    (h01 : (IsDuplicateFrame f0 f1 cfg).1 = true)
    (h02 : (IsDuplicateFrame f0 f2 cfg).1 = false)
    (h23 : (IsDuplicateFrame f2 f3 cfg).1 = true)
    (h24 : (IsDuplicateFrame f2 f4 cfg).1 = true)
    (h25 : (IsDuplicateFrame f2 f5 cfg).1 = false) :
    RemoveDuplicateFrames [f0, f1, f2, f3, f4, f5] cfg =
      ([{ f0 with delay_ms := 210 }, { f2 with delay_ms := 390 },
        { f5 with delay_ms := 150 }], 3, [1, 3, 4]) := by
  simp only [RemoveDuplicateFrames, rdLoop, flushDelay, h01, h02, h23, h24, h25,
    hkeep, hsum, hd0, hd1, hd2, hd3, hd4, hd5, if_true, if_pos rfl,
    Bool.false_eq_true, if_false]
  norm_num

/-- Witness for C1: concrete 1×1 bitmaps with pixel content 0/10/20 under
tolerance-1 settings with threshold 1/2. -/
theorem removeDuplicateFrames_keepFirst_sum_example_witness :
    RemoveDuplicateFrames
      [⟨0, some (mkBitmap 1 1 [0]), 100, 0, 0, 0, 0⟩,
       ⟨1, some (mkBitmap 1 1 [0]), 110, 0, 0, 0, 0⟩,
       ⟨2, some (mkBitmap 1 1 [10]), 120, 0, 0, 0, 0⟩,
       ⟨3, some (mkBitmap 1 1 [10]), 130, 0, 0, 0, 0⟩,
       ⟨4, some (mkBitmap 1 1 [10]), 140, 0, 0, 0, 0⟩,
       ⟨5, some (mkBitmap 1 1 [20]), 150, 0, 0, 0, 0⟩] tolSettings =
      ([⟨0, some (mkBitmap 1 1 [0]), 210, 0, 0, 0, 0⟩,
        ⟨2, some (mkBitmap 1 1 [10]), 390, 0, 0, 0, 0⟩,
        ⟨5, some (mkBitmap 1 1 [20]), 150, 0, 0, 0, 0⟩], 3, [1, 3, 4]) :=
  removeDuplicateFrames_keepFirst_sum_example _ _ _ _ _ _ tolSettings
    rfl rfl rfl rfl rfl rfl rfl rfl
    (by norm_num +decide [IsDuplicateFrame, CalculateSimilarity, compute_roi, genericScan,
      samplePairs, scanStep, pixels_equal, chanAbsDiff, clamp01, mkBitmap, tolSettings,
      LICE_IBitmap.pixelAt, clampi, LICE_RGBA, LICE_GETR, LICE_GETG, LICE_GETB, LICE_GETA,
      List.range_succ])
    (by norm_num +decide [IsDuplicateFrame, CalculateSimilarity, compute_roi, genericScan,
      samplePairs, scanStep, pixels_equal, chanAbsDiff, clamp01, mkBitmap, tolSettings,
      LICE_IBitmap.pixelAt, clampi, LICE_RGBA, LICE_GETR, LICE_GETG, LICE_GETB, LICE_GETA,
      List.range_succ])
    (by norm_num +decide [IsDuplicateFrame, CalculateSimilarity, compute_roi, genericScan,
      samplePairs, scanStep, pixels_equal, chanAbsDiff, clamp01, mkBitmap, tolSettings,
      LICE_IBitmap.pixelAt, clampi, LICE_RGBA, LICE_GETR, LICE_GETG, LICE_GETB, LICE_GETA,
      List.range_succ])
    (by norm_num +decide [IsDuplicateFrame, CalculateSimilarity, compute_roi, genericScan,
      samplePairs, scanStep, pixels_equal, chanAbsDiff, clamp01, mkBitmap, tolSettings,
      LICE_IBitmap.pixelAt, clampi, LICE_RGBA, LICE_GETR, LICE_GETG, LICE_GETB, LICE_GETA,
      List.range_succ])
    (by norm_num +decide [IsDuplicateFrame, CalculateSimilarity, compute_roi, genericScan,
      samplePairs, scanStep, pixels_equal, chanAbsDiff, clamp01, mkBitmap, tolSettings,
      LICE_IBitmap.pixelAt, clampi, LICE_RGBA, LICE_GETR, LICE_GETG, LICE_GETB, LICE_GETA,
      List.range_succ])

/-- The duplicate test never reads the frames' delays. -/
theorem isDuplicateFrame_set_delay (f g : FrameInfo)
    (cfg : DuplicateFrameRemovalSettings) (d e : Int) :
    IsDuplicateFrame { f with delay_ms := d } { g with delay_ms := e } cfg =
      IsDuplicateFrame f g cfg := by
  cases f; cases g; rfl

/-- `flushDelay` only rewrites the pending frame's delay. -/
theorem flushDelay_eq_set_delay (cfg : DuplicateFrameRemovalSettings)
    (p : FrameInfo) (gc gd : Int) :
    flushDelay cfg p gc gd = { p with delay_ms := (flushDelay cfg p gc gd).delay_ms } := by
  unfold flushDelay
  split_ifs <;> cases p <;> rfl

/-- The duplicate test is unchanged by flushing delays on either side. -/
theorem isDuplicateFrame_flushDelay (cfg : DuplicateFrameRemovalSettings)
    (p q : FrameInfo) (gc gd gc' gd' : Int) :
    IsDuplicateFrame (flushDelay cfg p gc gd) (flushDelay cfg q gc' gd') cfg =
      IsDuplicateFrame p q cfg := by
  rw [flushDelay_eq_set_delay cfg p, flushDelay_eq_set_delay cfg q,
    isDuplicateFrame_set_delay]

/-- A one-frame run flushes to the frame itself (delay untouched by Sum,
average over one, or no adjustment). -/
theorem flushDelay_singleton (cfg : DuplicateFrameRemovalSettings) (p : FrameInfo) :
    flushDelay cfg p 1 p.delay_ms = p := by
  unfold flushDelay
  split_ifs <;> cases p <;> simp [Int.tdiv_one]

/-- Under KeepFirst, the loop's output starts with a delay-flush of the
pending representative and consecutive output frames always compare as
non-duplicates. -/
theorem rdLoop_keepFirst_chain (cfg : DuplicateFrameRemovalSettings)
    (hk : cfg.keep_mode = kDuplicateKeepFirst) :
    ∀ (rest : List FrameInfo) (pending : FrameInfo) (gc gd : Int) (i : Nat),
      (∃ gc' gd', ((rdLoop cfg pending gc gd i rest).1).head? =
        some (flushDelay cfg pending gc' gd')) ∧
      List.Chain' (fun f g => (IsDuplicateFrame f g cfg).1 = false)
        (rdLoop cfg pending gc gd i rest).1 := by
  intro rest
  induction rest with
  | nil =>
    intro pending gc gd i
    exact ⟨⟨gc, gd, rfl⟩, List.chain'_singleton _⟩
  | cons cur rest ih =>
    intro pending gc gd i
    by_cases h1 : (IsDuplicateFrame pending cur cfg).1 = true
    · simp only [rdLoop, if_pos h1, if_pos hk]
      exact ih pending (gc + 1) (gd + cur.delay_ms) (i + 1)
    · simp only [rdLoop, if_neg h1]
      refine ⟨⟨gc, gd, rfl⟩, ?_⟩
      obtain ⟨⟨gc', gd', hhead⟩, hchain⟩ := ih cur 1 cur.delay_ms (i + 1)
      refine List.chain'_cons'.mpr ⟨?_, hchain⟩
      intro y hy
      rw [hhead, Option.mem_def] at hy
      injection hy with hy
      subst hy
      rw [isDuplicateFrame_flushDelay]
      simpa using h1

/-- On a pairwise-non-duplicate remainder, the loop flushes every frame as
its own singleton run and removes nothing. -/
theorem rdLoop_nondup_id (cfg : DuplicateFrameRemovalSettings) :
    ∀ (l : List FrameInfo) (pending : FrameInfo) (i : Nat),
      List.Chain' (fun f g => (IsDuplicateFrame f g cfg).1 = false) (pending :: l) →
      rdLoop cfg pending 1 pending.delay_ms i l = (pending :: l, 0, []) := by
  intro l
  induction l with
  | nil =>
    intro pending i _
    simp [rdLoop, flushDelay_singleton]
  | cons cur rest ih =>
    intro pending i hchain
    rw [List.chain'_cons] at hchain
    simp only [rdLoop]
    rw [if_neg (by simp [hchain.1]), ih cur (i + 1) hchain.2,
      flushDelay_singleton]

/-- Counterexample to C6: under KeepLast the collapser is not idempotent.
On frames X Y Z with X ≁ Y, Y ∼ Z, X ∼ Z (threshold 3/5), the first pass
keeps [X, Z]; a second pass over that output removes one more frame, so the
removed count is 1, not 0, and the output changes. -/
theorem removeDuplicateFrames_keepLast_not_idempotent :
    (RemoveDuplicateFrames
        (RemoveDuplicateFrames keepLastFrames keepLastSettings).1
        keepLastSettings).2.1 = 1 ∧
    RemoveDuplicateFrames (RemoveDuplicateFrames keepLastFrames keepLastSettings).1
        keepLastSettings ≠
      ((RemoveDuplicateFrames keepLastFrames keepLastSettings).1, 0, []) := by
  have h1 : (RemoveDuplicateFrames
      (RemoveDuplicateFrames keepLastFrames keepLastSettings).1
      keepLastSettings).2.1 = 1 := by
    norm_num +decide [RemoveDuplicateFrames, rdLoop, flushDelay, IsDuplicateFrame,
      CalculateSimilarity, compute_roi, genericScan, samplePairs, scanStep,
      pixels_equal, chanAbsDiff, clamp01, mkBitmap, keepLastFrames, keepLastSettings,
      bmX, bmY, bmZ, LICE_IBitmap.pixelAt, clampi, LICE_RGBA, LICE_GETR, LICE_GETG,
      LICE_GETB, LICE_GETA, show List.range 3 = [0, 1, 2] from rfl,
      show List.range 1 = [0] from rfl, List.flatMap_cons, List.flatMap_nil,
      show Int.toNat 3 = 3 from rfl, show Int.toNat 1 = 1 from rfl]
  refine ⟨h1, fun h => ?_⟩
  rw [h] at h1
  exact absurd h1 (by norm_num)

/-- C6 amended: with keep_mode = KeepFirst, running `RemoveDuplicateFrames`
on its own output (same configuration) removes zero frames and returns the
output unchanged, for every input and configuration. -/
theorem removeDuplicateFrames_idempotent_keepFirst (input : List FrameInfo)
    (cfg : DuplicateFrameRemovalSettings)
    (hk : cfg.keep_mode = kDuplicateKeepFirst) :
    RemoveDuplicateFrames (RemoveDuplicateFrames input cfg).1 cfg =
      ((RemoveDuplicateFrames input cfg).1, 0, []) := by
  cases input with
  | nil => rfl
  | cons f0 rest =>
    obtain ⟨⟨gc', gd', hhead⟩, hchain⟩ :=
      rdLoop_keepFirst_chain cfg hk rest f0 1 f0.delay_ms 1
    simp only [RemoveDuplicateFrames]
    cases hout : (rdLoop cfg f0 1 f0.delay_ms 1 rest).1 with
    | nil => rw [hout] at hhead
    | cons o0 out' =>
      rw [hout] at hchain
      exact rdLoop_nondup_id cfg out' o0 1 hchain

/-- Witness for the amended C6 at a concrete KeepFirst input. -/
theorem removeDuplicateFrames_idempotent_keepFirst_witness :
    tolSettings.keep_mode = kDuplicateKeepFirst ∧
    RemoveDuplicateFrames
        (RemoveDuplicateFrames [⟨0, some (mkBitmap 1 1 [0]), 100, 0, 0, 0, 0⟩,
          ⟨1, some (mkBitmap 1 1 [0]), 110, 0, 0, 0, 0⟩,
          ⟨2, some (mkBitmap 1 1 [10]), 120, 0, 0, 0, 0⟩] tolSettings).1 tolSettings =
      ((RemoveDuplicateFrames [⟨0, some (mkBitmap 1 1 [0]), 100, 0, 0, 0, 0⟩,
          ⟨1, some (mkBitmap 1 1 [0]), 110, 0, 0, 0, 0⟩,
          ⟨2, some (mkBitmap 1 1 [10]), 120, 0, 0, 0, 0⟩] tolSettings).1, 0, []) :=
  ⟨rfl, removeDuplicateFrames_idempotent_keepFirst _ tolSettings rfl⟩

/-- Clamped sample steps agree before and after the claim's step coercion. -/
theorem coerce_clamp_eq (s : Int) :
    (if (if s ≤ 0 then 1 else s) > 0 then (if s ≤ 0 then 1 else s) else 1) =
      (if s > 0 then s else 1) := by
  split_ifs <;> omega

/-- The scan loop body only reads tolerance, mask, threshold, and the
early-out flag from the configuration. -/
theorem scanStep_ext (c c' : DuplicateFrameRemovalSettings)
    (htol : c.per_channel_tolerance = c'.per_channel_tolerance)
    (hmask : c.channel_mask = c'.channel_mask)
    (hth : c.similarity_threshold = c'.similarity_threshold)
    (heo : c.enable_early_out = c'.enable_early_out) :
    scanStep c = scanStep c' := by
  funext total st pq
  simp only [scanStep, pixels_equal, chanAbsDiff, htol, hmask, hth, heo]

/-- The generic scan is unchanged by the claim's step coercion: it already
clamps non-positive steps to 1 itself. -/
theorem genericScan_coerceSteps (a b : LICE_IBitmap) (r : RECT)
    (cfg : DuplicateFrameRemovalSettings) :
    genericScan a b r (coerceSteps cfg) = genericScan a b r cfg := by
  cases cfg with
  | mk th sx sy tol mask km dm eo =>
    simp only [genericScan, coerceSteps]
    rw [coerce_clamp_eq, coerce_clamp_eq,
      scanStep_ext
        ⟨th, if sx ≤ 0 then 1 else sx, if sy ≤ 0 then 1 else sy, tol, mask, km, dm, eo⟩
        ⟨th, sx, sy, tol, mask, km, dm, eo⟩ rfl rfl rfl rfl]

/-- Counterexample to C8: with a 2×2 pair differing at both diagonal
corners, exact tolerance, full-frame region and early-out off, step (0,1)
scans generically and scores 1/2, while the coerced steps (1,1) take the
exact-compare fast path whose area-ratio estimate is 0. -/
theorem calculateSimilarity_step_coercion_counterexample :
    stepZeroSettings.sample_step_x ≤ 0 ∧
    CalculateSimilarity (some bmDiag0) (some bmDiag1) none stepZeroSettings ≠
      CalculateSimilarity (some bmDiag0) (some bmDiag1) none
        (coerceSteps stepZeroSettings) := by
  have h1 : CalculateSimilarity (some bmDiag0) (some bmDiag1) none stepZeroSettings
      = 1 / 2 := by
    norm_num +decide [CalculateSimilarity, compute_roi, genericScan, samplePairs,
      scanStep, pixels_equal, chanAbsDiff, clamp01, mkBitmap, stepZeroSettings,
      bmDiag0, bmDiag1, LICE_IBitmap.pixelAt, clampi, LICE_RGBA, LICE_GETR,
      LICE_GETG, LICE_GETB, LICE_GETA, show List.range 2 = [0, 1] from rfl,
      List.flatMap_cons, List.flatMap_nil, show Int.toNat 2 = 2 from rfl]
  have h2 : CalculateSimilarity (some bmDiag0) (some bmDiag1) none
      (coerceSteps stepZeroSettings) = 0 := by
    have hcmp : LICE_BitmapCmpEx bmDiag0 bmDiag1 (LICE_RGBA 255 255 255 0) =
        some (0, 0, 2, 2) := by decide
    norm_num +decide [CalculateSimilarity, compute_roi, coerceSteps, clamp01,
      stepZeroSettings, clampi, hcmp,
      show bmDiag0.getWidth = 2 from rfl, show bmDiag0.getHeight = 2 from rfl,
      show bmDiag1.getWidth = 2 from rfl, show bmDiag1.getHeight = 2 from rfl]
  refine ⟨by norm_num [stepZeroSettings], ?_⟩
  rw [h1, h2]
  norm_num

/-- C8 amended: similarity with a non-positive sample step equals similarity
with that step replaced by 1, provided the coerced configuration does not
reach the whole-frame exact-compare fast path (which a non-positive step
always avoids but the coerced step may enable). -/
theorem calculateSimilarity_step_coercion_amended (a b : Option LICE_IBitmap)
    (roi : Option RECT) (cfg : DuplicateFrameRemovalSettings)
    (hstep : cfg.sample_step_x ≤ 0 ∨ cfg.sample_step_y ≤ 0)
    (hnf : ¬ usesFastPath a b roi (coerceSteps cfg)) :
    CalculateSimilarity a b roi cfg =
      CalculateSimilarity a b roi (coerceSteps cfg) := by
  match a, b with
  | none, _ => rfl
  | some ra, none => rfl
  | some ra, some rb =>
    simp only [CalculateSimilarity]
    by_cases hdim : ra.getWidth ≠ rb.getWidth ∨ ra.getHeight ≠ rb.getHeight
    · rw [if_pos hdim, if_pos hdim]
    · rw [if_neg hdim, if_neg hdim]
      by_cases hempty : (compute_roi ra rb roi).right - (compute_roi ra rb roi).left ≤ 0 ∨
          (compute_roi ra rb roi).bottom - (compute_roi ra rb roi).top ≤ 0
      · rw [if_pos hempty, if_pos hempty]
      · rw [if_neg hempty, if_neg hempty]
        push_neg at hdim hempty
        have hfastL : ¬(cfg.per_channel_tolerance ≤ 0 ∧ cfg.sample_step_x = 1 ∧
            cfg.sample_step_y = 1 ∧ (compute_roi ra rb roi).left = 0 ∧
            (compute_roi ra rb roi).top = 0 ∧
            (compute_roi ra rb roi).right = ra.getWidth ∧
            (compute_roi ra rb roi).bottom = ra.getHeight) := by
          rintro ⟨-, hx, hy, -⟩
          rcases hstep with h | h <;> omega
        have hfastR : ¬((coerceSteps cfg).per_channel_tolerance ≤ 0 ∧
            (coerceSteps cfg).sample_step_x = 1 ∧ (coerceSteps cfg).sample_step_y = 1 ∧
            (compute_roi ra rb roi).left = 0 ∧ (compute_roi ra rb roi).top = 0 ∧
            (compute_roi ra rb roi).right = ra.getWidth ∧
            (compute_roi ra rb roi).bottom = ra.getHeight) := by
          intro hc
          exact hnf ⟨ra, rb, rfl, rfl, hdim.1, hdim.2, hempty.1, hempty.2,
            hc.1, hc.2.1, hc.2.2.1, hc.2.2.2.1, hc.2.2.2.2.1, hc.2.2.2.2.2.1,
            hc.2.2.2.2.2.2⟩
        rw [if_neg hfastL, if_neg hfastR]
        exact (genericScan_coerceSteps ra rb _ cfg).symm

/-- Witness for the amended C8: step (0,1) with tolerance 1 on the 2×2
diagonal pair. -/
theorem calculateSimilarity_step_coercion_amended_witness :
    (tolStepZeroSettings.sample_step_x ≤ 0 ∨ tolStepZeroSettings.sample_step_y ≤ 0) ∧
    CalculateSimilarity (some bmDiag0) (some bmDiag1) none tolStepZeroSettings =
      CalculateSimilarity (some bmDiag0) (some bmDiag1) none
        (coerceSteps tolStepZeroSettings) :=
  ⟨Or.inl (by decide),
    calculateSimilarity_step_coercion_amended (some bmDiag0) (some bmDiag1) none
      tolStepZeroSettings (Or.inl (by decide))
      (by
        rintro ⟨ra, rb, -, -, -, -, -, -, htol, -⟩
        exact absurd htol (by decide))⟩

/-- Pixel equality ignores the early-out flag. -/
theorem pixels_equal_early_out (p q : LICE_pixel)
    (cfg : DuplicateFrameRemovalSettings) (e : Bool) :
    pixels_equal p q { cfg with enable_early_out := e } = pixels_equal p q cfg := rfl

/-- A stopped scan state absorbs every further step (the `goto`). -/
theorem foldl_scanStep_stopped (cfg : DuplicateFrameRemovalSettings) (total : Int) :
    ∀ (l : List (LICE_pixel × LICE_pixel)) (s : ScanState), s.stopped = true →
      List.foldl (scanStep cfg total) s l = s := by
  intro l
  induction l with
  | nil => intro s _; rfl
  | cons pq l ih =>
    intro s hs
    rw [List.foldl_cons, scanStep, if_pos hs]
    exact ih s hs

/-- With the early-out disabled, the scan never stops, processes every
sample, and its equal count grows by at most the number of samples. -/
theorem foldl_scanStep_no_early (cfg : DuplicateFrameRemovalSettings) (total : Int) :
    ∀ (l : List (LICE_pixel × LICE_pixel)) (s : ScanState), s.stopped = false →
      (List.foldl (scanStep { cfg with enable_early_out := false } total) s l).stopped
          = false ∧
      (List.foldl (scanStep { cfg with enable_early_out := false } total) s l).processed
          = s.processed + l.length ∧
      s.equal_count ≤
        (List.foldl (scanStep { cfg with enable_early_out := false } total) s l).equal_count ∧
      (List.foldl (scanStep { cfg with enable_early_out := false } total) s l).equal_count
          ≤ s.equal_count + l.length := by
  intro l
  induction l with
  | nil => intro s hs; exact ⟨hs, by simp, le_refl _, by simp⟩
  | cons pq l ih =>
    intro s hs
    have hstep : scanStep { cfg with enable_early_out := false } total s pq =
        ⟨s.equal_count + (if pixels_equal pq.1 pq.2 cfg then 1 else 0),
          s.processed + 1, false⟩ := by
      simp [scanStep, hs, pixels_equal_early_out]
    rw [List.foldl_cons, hstep]
    obtain ⟨h1, h2, h3, h4⟩ := ih ⟨s.equal_count +
      (if pixels_equal pq.1 pq.2 cfg then 1 else 0), s.processed + 1, false⟩ rfl
    have hd : (0:Int) ≤ (if pixels_equal pq.1 pq.2 cfg then 1 else 0) ∧
        (if pixels_equal pq.1 pq.2 cfg then (1:Int) else 0) ≤ 1 := by
      split_ifs <;> omega
    refine ⟨h1, ?_, ?_, ?_⟩ <;> dsimp only at h2 h3 h4 ⊢ <;>
      simp only [List.length_cons] at * <;> push_cast at * <;> omega

/-- Dichotomy of the early-out scan against the full scan from a common
unstopped state: either the early-out scan never stops and the two agree
exactly, or it stops having visited a prefix, its counts bound the full
scan's, and the best-case bound certified at the stop point holds. -/
theorem foldl_scanStep_early_dichotomy (cfg : DuplicateFrameRemovalSettings)
    (total : Int) :
    ∀ (l : List (LICE_pixel × LICE_pixel)) (s : ScanState), s.stopped = false →
      ((List.foldl (scanStep { cfg with enable_early_out := true } total) s l).stopped
          = false →
        List.foldl (scanStep { cfg with enable_early_out := true } total) s l =
          List.foldl (scanStep { cfg with enable_early_out := false } total) s l) ∧
      ((List.foldl (scanStep { cfg with enable_early_out := true } total) s l).stopped
          = true →
        s.processed <
          (List.foldl (scanStep { cfg with enable_early_out := true } total) s l).processed ∧
        s.equal_count ≤
          (List.foldl (scanStep { cfg with enable_early_out := true } total) s l).equal_count ∧
        (List.foldl (scanStep { cfg with enable_early_out := true } total) s l).equal_count ≤
          (List.foldl (scanStep { cfg with enable_early_out := false } total) s l).equal_count ∧
        (List.foldl (scanStep { cfg with enable_early_out := false } total) s l).equal_count -
            (List.foldl (scanStep { cfg with enable_early_out := true } total) s l).equal_count ≤
          (List.foldl (scanStep { cfg with enable_early_out := false } total) s l).processed -
            (List.foldl (scanStep { cfg with enable_early_out := true } total) s l).processed ∧
        ((((List.foldl (scanStep { cfg with enable_early_out := true } total) s l).equal_count +
            (total -
              (List.foldl (scanStep { cfg with enable_early_out := true } total) s l).processed)
            : Int) : ℚ)) / ((total : Int) : ℚ) < cfg.similarity_threshold) := by
  intro l
  induction l with
  | nil =>
    intro s hs
    exact ⟨fun _ => rfl, fun hc => absurd hc (by simp [hs])⟩
  | cons pq l ih =>
    intro s hs
    have hsF : scanStep { cfg with enable_early_out := false } total s pq =
        ⟨s.equal_count + (if pixels_equal pq.1 pq.2 cfg then 1 else 0),
          s.processed + 1, false⟩ := by
      simp [scanStep, hs, pixels_equal_early_out]
    have hsT : scanStep { cfg with enable_early_out := true } total s pq =
        ⟨s.equal_count + (if pixels_equal pq.1 pq.2 cfg then 1 else 0), s.processed + 1,
          decide ((((s.equal_count + (if pixels_equal pq.1 pq.2 cfg then 1 else 0) +
            (total - (s.processed + 1)) : Int) : ℚ)) / ((total : Int) : ℚ) <
            cfg.similarity_threshold)⟩ := by
      simp [scanStep, hs, pixels_equal_early_out]
    have hd : (0:Int) ≤ (if pixels_equal pq.1 pq.2 cfg then 1 else 0) ∧
        (if pixels_equal pq.1 pq.2 cfg then (1:Int) else 0) ≤ 1 := by
      split_ifs <;> omega
    rw [List.foldl_cons, List.foldl_cons, hsF, hsT]
    by_cases hstop : (((s.equal_count + (if pixels_equal pq.1 pq.2 cfg then 1 else 0) +
        (total - (s.processed + 1)) : Int) : ℚ)) / ((total : Int) : ℚ) <
        cfg.similarity_threshold
    · rw [decide_eq_true hstop,
        foldl_scanStep_stopped { cfg with enable_early_out := true } total l _ rfl]
      obtain ⟨f1, f2, f3, f4⟩ := foldl_scanStep_no_early cfg total l
        ⟨s.equal_count + (if pixels_equal pq.1 pq.2 cfg then 1 else 0),
          s.processed + 1, false⟩ rfl
      constructor
      · intro hcon; exact absurd hcon (by simp)
      · intro _
        dsimp only at f2 f3 f4 ⊢
        exact ⟨by omega, by omega, by omega, by omega, hstop⟩
    · rw [decide_eq_false hstop]
      obtain ⟨ihA, ihB⟩ := ih ⟨s.equal_count +
        (if pixels_equal pq.1 pq.2 cfg then 1 else 0), s.processed + 1, false⟩ rfl
      refine ⟨ihA, fun hst => ?_⟩
      obtain ⟨g1, g2, g3, g4, g5⟩ := ihB hst
      dsimp only at g1 g2
      exact ⟨by omega, by omega, g3, g4, g5⟩

/-- The sampled-pair list has exactly `nH * nW` entries. -/
theorem samplePairs_length (a b : LICE_IBitmap) (r : RECT) (sX sY : Int)
    (nW nH : Nat) : (samplePairs a b r sX sY nW nH).length = nH * nW := by
  simp [samplePairs, List.length_flatten, List.map_map, Function.comp_def]

/-- `clamp01` is the identity on `[0, 1]`. -/
theorem clamp01_eq_self (x : ℚ) (h0 : 0 ≤ x) (h1 : x ≤ 1) : clamp01 x = x := by
  unfold clamp01
  rw [if_neg (not_lt.mpr h0), if_neg (not_lt.mpr h1)]

/-- Early-out soundness at the generic-scan level: on a non-empty region
the early-out score never exceeds the full score, they differ only when the
full score is below the threshold, and they classify identically. -/
theorem genericScan_early_out (a b : LICE_IBitmap) (r : RECT)
    (cfg : DuplicateFrameRemovalSettings)
    (hrw : 0 < r.right - r.left) (hrh : 0 < r.bottom - r.top) :
    genericScan a b r { cfg with enable_early_out := true } ≤
      genericScan a b r { cfg with enable_early_out := false } ∧
    (genericScan a b r { cfg with enable_early_out := true } ≠
        genericScan a b r { cfg with enable_early_out := false } →
      genericScan a b r { cfg with enable_early_out := false } <
        cfg.similarity_threshold) ∧
    (cfg.similarity_threshold ≤ genericScan a b r { cfg with enable_early_out := true } ↔
      cfg.similarity_threshold ≤
        genericScan a b r { cfg with enable_early_out := false }) := by
  have hsX0 : (0:Int) < (if cfg.sample_step_x > 0 then cfg.sample_step_x else 1) := by
    split_ifs <;> omega
  have hsY0 : (0:Int) < (if cfg.sample_step_y > 0 then cfg.sample_step_y else 1) := by
    split_ifs <;> omega
  simp only [genericScan]
  set sX := (if cfg.sample_step_x > 0 then cfg.sample_step_x else 1) with hsXdef
  set sY := (if cfg.sample_step_y > 0 then cfg.sample_step_y else 1) with hsYdef
  set wS := (r.right - r.left + (sX - 1)).tdiv sX with hwSdef
  set hS := (r.bottom - r.top + (sY - 1)).tdiv sY with hhSdef
  have h1W : 1 ≤ wS := by
    rw [hwSdef, Int.tdiv_eq_ediv (by omega) (by omega), Int.le_ediv_iff_mul_le hsX0]
    omega
  have h1H : 1 ≤ hS := by
    rw [hhSdef, Int.tdiv_eq_ediv (by omega) (by omega), Int.le_ediv_iff_mul_le hsY0]
    omega
  set tot := wS * hS with htotdef
  have htot0 : 0 < tot := mul_pos (by omega) (by omega)
  set pairs := samplePairs a b r sX sY wS.toNat hS.toNat with hpairsdef
  have hlen : (pairs.length : Int) = tot := by
    rw [hpairsdef, samplePairs_length, htotdef]
    push_cast [Int.toNat_of_nonneg (by omega : (0:Int) ≤ wS),
      Int.toNat_of_nonneg (by omega : (0:Int) ≤ hS)]
    ring
  simp only [if_neg (by omega : ¬ tot ≤ 0)]
  obtain ⟨dA, dB⟩ := foldl_scanStep_early_dichotomy cfg tot pairs ⟨0, 0, false⟩ rfl
  obtain ⟨f1, f2, f3, f4⟩ := foldl_scanStep_no_early cfg tot pairs ⟨0, 0, false⟩ rfl
  set ft := List.foldl (scanStep { cfg with enable_early_out := true } tot)
    ⟨0, 0, false⟩ pairs with hftdef
  set ff := List.foldl (scanStep { cfg with enable_early_out := false } tot)
    ⟨0, 0, false⟩ pairs with hffdef
  dsimp only at f2 f3 f4
  have hffproc : ff.processed = tot := by omega
  by_cases hst : ft.stopped = true
  · obtain ⟨g1, g2, g3, g4, g5⟩ := dB hst
    dsimp only at g1 g2
    rw [if_neg (by omega : ¬ ft.processed ≤ 0), if_neg (by omega : ¬ ff.processed ≤ 0)]
    have hq : (0:ℚ) < ((tot : Int) : ℚ) := by exact_mod_cast htot0
    have hffle : ff.equal_count ≤ tot := by omega
    have hftle : ft.equal_count ≤ tot := by omega
    rw [clamp01_eq_self _ (div_nonneg (by exact_mod_cast g2) (le_of_lt hq))
        ((div_le_one hq).mpr (by exact_mod_cast hftle)),
      clamp01_eq_self _ (div_nonneg (by exact_mod_cast f3) (le_of_lt hq))
        ((div_le_one hq).mpr (by exact_mod_cast hffle))]
    have hle : (ft.equal_count : ℚ) / ((tot : Int) : ℚ) ≤
        (ff.equal_count : ℚ) / ((tot : Int) : ℚ) :=
      (div_le_div_iff_of_pos_right hq).mpr (by exact_mod_cast g3)
    have hflt : (ff.equal_count : ℚ) / ((tot : Int) : ℚ) < cfg.similarity_threshold := by
      have hb : ff.equal_count ≤ ft.equal_count + (tot - ft.processed) := by omega
      have hb' : (ff.equal_count : ℚ) / ((tot : Int) : ℚ) ≤
          (((ft.equal_count + (tot - ft.processed) : Int)) : ℚ) / ((tot : Int) : ℚ) :=
        (div_le_div_iff_of_pos_right hq).mpr (by exact_mod_cast hb)
      exact lt_of_le_of_lt hb' g5
    exact ⟨hle, fun _ => hflt, by constructor <;> intro h <;> linarith⟩
  · rw [dA (by simpa using hst)]
    exact ⟨le_refl _, fun h => absurd rfl h, Iff.rfl⟩

/-- C3: on the generic scan path, enabling the early-out yields a score no
greater than the full scan's; the scores differ only when the full score is
below the threshold, so both classify the pair identically. -/
theorem calculateSimilarity_early_out_sound (a b : LICE_IBitmap)
    (roi : Option RECT) (cfg : DuplicateFrameRemovalSettings)
    (hdw : a.getWidth = b.getWidth) (hdh : a.getHeight = b.getHeight)
    (hrw : 0 < (compute_roi a b roi).right - (compute_roi a b roi).left)
    (hrh : 0 < (compute_roi a b roi).bottom - (compute_roi a b roi).top)
    (hgen : ¬(cfg.per_channel_tolerance ≤ 0 ∧ cfg.sample_step_x = 1 ∧
      cfg.sample_step_y = 1 ∧ (compute_roi a b roi).left = 0 ∧
      (compute_roi a b roi).top = 0 ∧
      (compute_roi a b roi).right = a.getWidth ∧
      (compute_roi a b roi).bottom = a.getHeight)) :
    CalculateSimilarity (some a) (some b) roi { cfg with enable_early_out := true } ≤
      CalculateSimilarity (some a) (some b) roi { cfg with enable_early_out := false } ∧
    (CalculateSimilarity (some a) (some b) roi { cfg with enable_early_out := true } ≠
        CalculateSimilarity (some a) (some b) roi { cfg with enable_early_out := false } →
      CalculateSimilarity (some a) (some b) roi { cfg with enable_early_out := false } <
        cfg.similarity_threshold) ∧
    (cfg.similarity_threshold ≤
        CalculateSimilarity (some a) (some b) roi { cfg with enable_early_out := true } ↔
      cfg.similarity_threshold ≤
        CalculateSimilarity (some a) (some b) roi { cfg with enable_early_out := false }) := by
  have hdims : ¬(a.getWidth ≠ b.getWidth ∨ a.getHeight ≠ b.getHeight) := by
    push_neg; exact ⟨hdw, hdh⟩
  have hempty : ¬((compute_roi a b roi).right - (compute_roi a b roi).left ≤ 0 ∨
      (compute_roi a b roi).bottom - (compute_roi a b roi).top ≤ 0) := by omega
  simp only [CalculateSimilarity, if_neg hdims, if_neg hempty, if_neg hgen]
  exact genericScan_early_out a b (compute_roi a b roi) cfg hrw hrh

/-- Witness for C3: the 2×2 diagonal pair under tolerance-1 settings. -/
theorem calculateSimilarity_early_out_sound_witness :
    0 < (compute_roi bmDiag0 bmDiag1 none).right -
      (compute_roi bmDiag0 bmDiag1 none).left ∧
    CalculateSimilarity (some bmDiag0) (some bmDiag1) none
        { tolSettings with enable_early_out := true } ≤
      CalculateSimilarity (some bmDiag0) (some bmDiag1) none
        { tolSettings with enable_early_out := false } :=
  ⟨by decide, (calculateSimilarity_early_out_sound bmDiag0 bmDiag1 none tolSettings
      rfl rfl (by decide) (by decide) (by decide)).1⟩

/-- A sampled offset stays inside the scanned extent: the loop visits
`start + j*s` only while it is below `start + len`. -/
theorem sample_coord_lt (len s : Int) (j : ℕ) (hs : 0 < s) (hlen : 0 < len)
    (hj : (j : Int) < (len + (s - 1)).tdiv s) : (j : Int) * s < len := by
  rw [Int.tdiv_eq_ediv (by omega) (by omega)] at hj
  have h2 : ((j : Int) + 1) * s ≤ len + (s - 1) :=
    (Int.le_ediv_iff_mul_le hs).mp (by omega)
  nlinarith

/-- The sampled-pair list only reads the second bitmap at sampled
coordinates, so agreeing there gives equal lists. -/
theorem samplePairs_congr_right (a b b' : LICE_IBitmap) (r : RECT) (sX sY : Int)
    (nW nH : Nat)
    (h : ∀ i j : ℕ, i < nH → j < nW →
      b.pixelAt (r.top + (i : Int) * sY) (r.left + (j : Int) * sX) =
        b'.pixelAt (r.top + (i : Int) * sY) (r.left + (j : Int) * sX)) :
    samplePairs a b r sX sY nW nH = samplePairs a b' r sX sY nW nH := by
  unfold samplePairs
  congr 1
  apply List.map_congr_left
  intro i hi
  apply List.map_congr_left
  intro j hj
  dsimp only
  rw [h i j (List.mem_range.mp hi) (List.mem_range.mp hj)]

/-- C7: with both sample steps at least 2, a pixel position off the sample
grid in both axes never influences the similarity score: replacing that
pixel of the second raster by the first raster's value leaves the score
unchanged. -/
theorem calculateSimilarity_off_grid_pixel (a b b' : LICE_IBitmap)
    (roi : Option RECT) (cfg : DuplicateFrameRemovalSettings) (px py : Int)
    (hsx : 2 ≤ cfg.sample_step_x) (hsy : 2 ≤ cfg.sample_step_y)
    (hW : a.getWidth = b.getWidth) (hH : a.getHeight = b.getHeight)
    (hWb : b'.getWidth = b.getWidth) (hHb : b'.getHeight = b.getHeight)
    (hxoff : ∀ k : ℕ, (compute_roi a b roi).left + (k : Int) * cfg.sample_step_x ≠ px)
    (hyoff : ∀ k : ℕ, (compute_roi a b roi).top + (k : Int) * cfg.sample_step_y ≠ py)
    (hab : ∀ yy xx : Int, (compute_roi a b roi).top ≤ yy →
      yy < (compute_roi a b roi).bottom → (compute_roi a b roi).left ≤ xx →
      xx < (compute_roi a b roi).right → ¬(yy = py ∧ xx = px) →
      a.pixelAt yy xx = b.pixelAt yy xx)
    (hbb : ∀ yy xx : Int, (compute_roi a b roi).top ≤ yy →
      yy < (compute_roi a b roi).bottom → (compute_roi a b roi).left ≤ xx →
      xx < (compute_roi a b roi).right → ¬(yy = py ∧ xx = px) →
      b'.pixelAt yy xx = b.pixelAt yy xx)
    (heq : b'.pixelAt py px = a.pixelAt py px) :
    CalculateSimilarity (some a) (some b) roi cfg =
      CalculateSimilarity (some a) (some b') roi cfg := by
  have hroi : compute_roi a b' roi = compute_roi a b roi := by
    unfold compute_roi
    rw [hWb, hHb]
  have hfast : ¬(cfg.per_channel_tolerance ≤ 0 ∧ cfg.sample_step_x = 1 ∧
      cfg.sample_step_y = 1 ∧ (compute_roi a b roi).left = 0 ∧
      (compute_roi a b roi).top = 0 ∧
      (compute_roi a b roi).right = a.getWidth ∧
      (compute_roi a b roi).bottom = a.getHeight) := by
    rintro ⟨-, h1, -⟩
    omega
  simp only [CalculateSimilarity, hroi, hWb, hHb]
  by_cases hdim : a.getWidth ≠ b.getWidth ∨ a.getHeight ≠ b.getHeight
  · rw [if_pos hdim, if_pos hdim]
  · rw [if_neg hdim, if_neg hdim]
    by_cases hempty : (compute_roi a b roi).right - (compute_roi a b roi).left ≤ 0 ∨
        (compute_roi a b roi).bottom - (compute_roi a b roi).top ≤ 0
    · rw [if_pos hempty, if_pos hempty]
    · rw [if_neg hempty, if_neg hempty, if_neg hfast, if_neg hfast]
      push_neg at hempty
      have hx0 : cfg.sample_step_x > 0 := by omega
      have hy0 : cfg.sample_step_y > 0 := by omega
      have hpix : ∀ i j : ℕ,
          i < (((compute_roi a b roi).bottom - (compute_roi a b roi).top +
            (cfg.sample_step_y - 1)).tdiv cfg.sample_step_y).toNat →
          j < (((compute_roi a b roi).right - (compute_roi a b roi).left +
            (cfg.sample_step_x - 1)).tdiv cfg.sample_step_x).toNat →
          b.pixelAt ((compute_roi a b roi).top + (i : Int) * cfg.sample_step_y)
              ((compute_roi a b roi).left + (j : Int) * cfg.sample_step_x) =
            b'.pixelAt ((compute_roi a b roi).top + (i : Int) * cfg.sample_step_y)
              ((compute_roi a b roi).left + (j : Int) * cfg.sample_step_x) := by
        intro i j hi hj
        have hyy : (i : Int) * cfg.sample_step_y <
            (compute_roi a b roi).bottom - (compute_roi a b roi).top :=
          sample_coord_lt _ _ i (by omega) (by omega) (by omega)
        have hxx : (j : Int) * cfg.sample_step_x <
            (compute_roi a b roi).right - (compute_roi a b roi).left :=
          sample_coord_lt _ _ j (by omega) (by omega) (by omega)
        have hynn : (0:Int) ≤ (i : Int) * cfg.sample_step_y :=
          mul_nonneg (Int.ofNat_nonneg i) (by omega)
        have hxnn : (0:Int) ≤ (j : Int) * cfg.sample_step_x :=
          mul_nonneg (Int.ofNat_nonneg j) (by omega)
        exact (hbb _ _ (by omega) (by omega) (by omega) (by omega)
          (fun hc => hxoff j hc.2)).symm
      simp only [genericScan, if_pos hx0, if_pos hy0]
      rw [samplePairs_congr_right a b b' (compute_roi a b roi) cfg.sample_step_x
        cfg.sample_step_y _ _ hpix]

/-- Witness for C7: 3×3 rasters under stride 2 differing only at (1,1). -/
theorem calculateSimilarity_off_grid_pixel_witness :
    2 ≤ stride2Settings.sample_step_x ∧
    CalculateSimilarity (some bmGrid0) (some bmGrid1) none stride2Settings =
      CalculateSimilarity (some bmGrid0) (some bmGrid0) none stride2Settings := by
  have hroi : compute_roi bmGrid0 bmGrid1 none = ⟨0, 0, 3, 3⟩ := by decide
  refine ⟨by decide,
    calculateSimilarity_off_grid_pixel bmGrid0 bmGrid1 bmGrid0 none stride2Settings
      1 1 (by decide) (by decide) rfl rfl rfl rfl ?_ ?_ ?_ ?_ rfl⟩
  · intro k
    rw [hroi]
    show (0:Int) + (k : Int) * stride2Settings.sample_step_x ≠ 1
    have : stride2Settings.sample_step_x = 2 := rfl
    rw [this]
    omega
  · intro k
    rw [hroi]
    show (0:Int) + (k : Int) * stride2Settings.sample_step_y ≠ 1
    have : stride2Settings.sample_step_y = 2 := rfl
    rw [this]
    omega
  · intro yy xx h1 h2 h3 h4 h5
    rw [hroi] at h1 h2 h3 h4
    dsimp only at h1 h2 h3 h4
    interval_cases yy <;> interval_cases xx <;>
      first
        | decide
        | exact absurd ⟨rfl, rfl⟩ h5
  · intro yy xx h1 h2 h3 h4 h5
    rw [hroi] at h1 h2 h3 h4
    dsimp only at h1 h2 h3 h4
    interval_cases yy <;> interval_cases xx <;>
      first
        | decide
        | exact absurd ⟨rfl, rfl⟩ h5

end Licecap
